import Mathlib

/-
Verification development for the Kvantum numerical engine
(source: src/utils/heston.ts).

The TypeScript source works with IEEE doubles; the shallow embedding below
works with exact real numbers, the standard idealisation. Randomness is
determinised: the Box-Muller sampler randn_bm is abstracted as an explicit
noise stream, a function giving for path index i and step index t the pair
(z1, z2) of standard-normal draws that the source obtains from two calls to
randn_bm. Wall-clock measurement (performance.now) is not modelled, so the
executionTime field of the source result record is omitted.
-/

namespace Kvantum

/-- Option kind flag of the parameter record ('Call' or 'Put' in the source). -/
inductive OptionType where
  | Call
  | Put
deriving DecidableEq

/-- Input parameter record, from the HestonParams interface in src/types.ts. -/
structure HestonParams where
  S0 : ℝ
  K : ℝ
  r : ℝ
  T : ℝ
  v0 : ℝ
  theta : ℝ
  kappa : ℝ
  xi : ℝ
  rho : ℝ
  numPaths : ℕ
  timeSteps : ℕ
  optionType : OptionType

/-- One visualization sample { time, value, vol, pathId } pushed by the source. -/
structure PathPoint where
  time : ℝ
  value : ℝ
  vol : ℝ
  pathId : ℕ

/-- Sensitivity bundle returned by calculateGreeks. -/
structure Greeks where
  delta : ℝ
  gamma : ℝ
  vega : ℝ
  theta : ℝ
  rho : ℝ

/-- Result record of runHestonSimulation (src/types.ts SimulationResult),
without the wall-clock executionTime field. -/
structure SimulationResult where
  price : ℝ
  standardError : ℝ
  paths : List PathPoint
  finalPrices : List ℝ
  greeks : Greeks

/-- Validity domain of a parameter record, from section 3 of the spec:
S0 > 0, K > 0, T > 0, v0 >= 0, theta >= 0, kappa > 0, xi >= 0,
rho in [-1, 1], N and M positive integers. -/
def ValidParams (p : HestonParams) : Prop :=
  0 < p.S0 ∧ 0 < p.K ∧ 0 < p.T ∧ 0 ≤ p.v0 ∧ 0 ≤ p.theta ∧ 0 < p.kappa ∧
    0 ≤ p.xi ∧ -1 ≤ p.rho ∧ p.rho ≤ 1 ∧ 1 ≤ p.numPaths ∧ 1 ≤ p.timeSteps

/-- A noise stream: for path i and step t, the pair (z1, z2) of draws the
source takes from randn_bm at that step. -/
def NoiseStream : Type := ℕ → ℕ → ℝ × ℝ

/-- The all-zero noise stream, used to evaluate the model at concrete inputs. -/
noncomputable def zeroNoise : NoiseStream := fun _ _ => (0, 0)

/-- One step of the inner loop of runHestonSimulation (heston.ts lines 45-62):
correlate the draws, apply full truncation to the variance, and update the
pair (X, v) of log-price and variance. -/
noncomputable def stepUpdate (p : HestonParams) (z1 z2 : ℝ) (s : ℝ × ℝ) : ℝ × ℝ :=
  let dt := p.T / p.timeSteps
  let sqrtDt := Real.sqrt dt
  let w1 := z1
  let w2 := p.rho * z1 + Real.sqrt (1 - p.rho * p.rho) * z2
  let vPrev := max 0 s.2
  let sqrtVPrev := Real.sqrt vPrev
  (s.1 + (p.r - 0.5 * vPrev) * dt + sqrtVPrev * sqrtDt * w1,
   s.2 + p.kappa * (p.theta - vPrev) * dt + p.xi * sqrtVPrev * sqrtDt * w2)

/-- State (X, v) of one path after t steps, for the path whose per-step draws
are given by z; the source initialises X = ln(S0), v = v0 (lines 37-38). -/
noncomputable def pathState (p : HestonParams) (z : ℕ → ℝ × ℝ) : ℕ → ℝ × ℝ
  | 0 => (Real.log p.S0, p.v0)
  | t + 1 => stepUpdate p (z t).1 (z t).2 (pathState p z t)

/-- Terminal asset price of one path: S_final = exp(X) after timeSteps steps. -/
noncomputable def terminalPrice (p : HestonParams) (z : ℕ → ℝ × ℝ) : ℝ :=
  Real.exp (pathState p z p.timeSteps).1

/-- Payoff of one path (heston.ts lines 73-75): max(0, K - S) for a Put,
max(0, S - K) otherwise (Call). -/
noncomputable def pathPayoff (p : HestonParams) (z : ℕ → ℝ × ℝ) : ℝ :=
  match p.optionType with
  | OptionType.Put => max 0 (p.K - terminalPrice p z)
  | OptionType.Call => max 0 (terminalPrice p z - p.K)

/-- Visualization samples recorded for one visualized path i: the initial
sample { 0, S0, v0, i } (line 42) followed by, for each step, the sample
{ t*dt, exp X, max(0, v), i } taken after the step's update (line 66). -/
noncomputable def visualSamples (p : HestonParams) (z : ℕ → ℝ × ℝ) (i : ℕ) :
    List PathPoint :=
  ⟨0, p.S0, p.v0, i⟩ ::
    (List.range p.timeSteps).map (fun t =>
      let s := pathState p z (t + 1)
      ⟨(t + 1 : ℕ) * (p.T / p.timeSteps), Real.exp s.1, max 0 s.2, i⟩)

/-- Fixed visualization cap (heston.ts line 31: pathsToVisualize = 50). -/
def pathsToVisualize : ℕ := 50

/-- The visualization array built by the outer loop: path i contributes its
samples exactly when i < pathsToVisualize. -/
noncomputable def visualizationPaths (p : HestonParams) (noise : NoiseStream) :
    List PathPoint :=
  (List.range p.numPaths).flatMap (fun i =>
    if i < pathsToVisualize then visualSamples p (noise i) i else [])

/-- Terminal-price distribution: one entry per simulated path (line 79). -/
noncomputable def finalPrices (p : HestonParams) (noise : NoiseStream) : List ℝ :=
  (List.range p.numPaths).map (fun i => terminalPrice p (noise i))

/-- The payoffs of all simulated paths, in path order. -/
noncomputable def payoffList (p : HestonParams) (noise : NoiseStream) : List ℝ :=
  (List.range p.numPaths).map (fun i => pathPayoff p (noise i))

/-- Accumulated sum of payoffs (source accumulator sumPayoffs). -/
noncomputable def sumPayoffs (p : HestonParams) (noise : NoiseStream) : ℝ :=
  (payoffList p noise).sum

/-- Accumulated sum of squared payoffs (source accumulator sumPayoffsSquared). -/
noncomputable def sumPayoffsSquared (p : HestonParams) (noise : NoiseStream) : ℝ :=
  ((payoffList p noise).map (fun x => x * x)).sum

/-- meanPayoff = sumPayoffs / numPaths (line 83). -/
noncomputable def meanPayoff (p : HestonParams) (noise : NoiseStream) : ℝ :=
  sumPayoffs p noise / p.numPaths

/-- Discounted price = exp(-r*T) * meanPayoff (line 84). -/
noncomputable def simPrice (p : HestonParams) (noise : NoiseStream) : ℝ :=
  Real.exp (-p.r * p.T) * meanPayoff p noise

/-- variance = sumPayoffsSquared / numPaths - meanPayoff^2 (line 86); note the
source applies no clamping here. -/
noncomputable def simVariance (p : HestonParams) (noise : NoiseStream) : ℝ :=
  sumPayoffsSquared p noise / p.numPaths - meanPayoff p noise * meanPayoff p noise

/-- standardError = (sqrt(variance) / sqrt(numPaths)) * exp(-r*T) (line 87). -/
noncomputable def simStandardError (p : HestonParams) (noise : NoiseStream) : ℝ :=
  Real.sqrt (simVariance p noise) / Real.sqrt p.numPaths * Real.exp (-p.r * p.T)

/-- Standard normal density used inside calculateGreeks (line 108). -/
noncomputable def normPdf (x : ℝ) : ℝ :=
  Real.exp (-0.5 * x * x) / Real.sqrt (2 * Real.pi)

/-- The rational cumulative-normal approximation used inside calculateGreeks
(lines 109-115), with its literal constants. -/
noncomputable def normCdf (x : ℝ) : ℝ :=
  let t := 1 / (1 + 0.2316419 * |x|)
  let d := 0.398942280401432678 * Real.exp (-x * x / 2)
  let prob := d * t *
    (0.319381530 + t * (-0.356563782 + t *
      (1.781477937 + t * (-1.821255978 + t * 1.330274429))))
  if x > 0 then 1 - prob else prob

/-- calculateGreeks (heston.ts lines 100-147): lognormal closed-form proxy
with vol = sqrt(theta) and T floored at 0.0001. The currentPrice argument is
accepted, as in the source, and never used. -/
noncomputable def calculateGreeks (p : HestonParams) (currentPrice : ℝ) : Greeks :=
  let vol := Real.sqrt p.theta
  let safeT := max 0.0001 p.T
  let d1 := (Real.log (p.S0 / p.K) + (p.r + 0.5 * vol * vol) * safeT) /
    (vol * Real.sqrt safeT)
  let d2 := d1 - vol * Real.sqrt safeT
  let Nd1 := normCdf d1
  let Nd2 := normCdf d2
  let Nminusd2 := normCdf (-d2)
  let gamma := normPdf d1 / (p.S0 * vol * Real.sqrt safeT)
  let vega := p.S0 * Real.sqrt safeT * normPdf d1 / 100
  match p.optionType with
  | OptionType.Put =>
    { delta := Nd1 - 1
      gamma := gamma
      vega := vega
      theta := (-(p.S0 * vol * normPdf d1) / (2 * Real.sqrt safeT) +
        p.r * p.K * Real.exp (-p.r * safeT) * Nminusd2) / 365
      rho := -p.K * safeT * Real.exp (-p.r * safeT) * Nminusd2 / 100 }
  | OptionType.Call =>
    { delta := Nd1
      gamma := gamma
      vega := vega
      theta := (-(p.S0 * vol * normPdf d1) / (2 * Real.sqrt safeT) -
        p.r * p.K * Real.exp (-p.r * safeT) * Nd2) / 365
      rho := p.K * safeT * Real.exp (-p.r * safeT) * Nd2 / 100 }

/-- The result record assembled by runHestonSimulation (lines 89-96). -/
noncomputable def runHestonSimulationCore (p : HestonParams) (noise : NoiseStream) :
    SimulationResult :=
  { price := simPrice p noise
    standardError := simStandardError p noise
    paths := visualizationPaths p noise
    finalPrices := finalPrices p noise
    greeks := calculateGreeks p (simPrice p noise) }

/-- runHestonSimulation (heston.ts lines 17-97). The source body contains no
input validation and no throw statement, so every call returns normally; the
error channel demanded by the spec's validation contract is made explicit as
an Except so that the contract is statable, and the body unconditionally
returns ok. -/
noncomputable def runHestonSimulation (p : HestonParams) (noise : NoiseStream) :
    Except String SimulationResult :=
  Except.ok (runHestonSimulationCore p noise)

/-- Detailed qubit partition of the resource estimate. -/
structure QubitBreakdown where
  state : ℕ
  ancilla : ℕ
  qae : ℕ

/-- Resource estimate record (src/types.ts QuantumMetrics). Quantities the
source computes as integer-valued doubles are carried as naturals. -/
structure QuantumMetrics where
  estimatedQubits : ℕ
  circuitDepth : ℕ
  theoreticalSpeedup : ℝ
  estimatedQuantumError : ℝ
  tGateCount : ℕ
  cnotCount : ℕ
  oracleDepth : ℕ
  groverIterations : ℕ
  qubitBreakdown : QubitBreakdown

/-- targetError = 1 / sqrt(numPaths) (heston.ts line 154). -/
noncomputable def targetError (p : HestonParams) : ℝ :=
  1 / Real.sqrt p.numPaths

/-- precisionBits = ceil(10 + max(0, -log2(targetError))) (line 155). -/
noncomputable def precisionBits (p : HestonParams) : ℕ :=
  ⌈(10 : ℝ) + max 0 (-Real.logb 2 (targetError p))⌉₊

/-- groverIterations = ceil((pi/4) * (1/targetError)) (line 158). -/
noncomputable def groverIterations (p : HestonParams) : ℕ :=
  ⌈Real.pi / 4 * (1 / targetError p)⌉₊

/-- speedup = numPaths / groverIterations (line 159). -/
noncomputable def theoreticalSpeedup (p : HestonParams) : ℝ :=
  (p.numPaths : ℝ) / (groverIterations p : ℝ)

/-- tGatesPerStep = 2*costGaussian + 1*costSqrt + 4*costMult + 3*costAdd with
costMult = 20b, costAdd = 4b, costSqrt = 40b, costGaussian = 100b
(lines 162-168). -/
def tGatesPerStep (b : ℕ) : ℕ :=
  2 * (100 * b) + 1 * (40 * b) + 4 * (20 * b) + 3 * (4 * b)

/-- oracleTDepth = timeSteps * tGatesPerStep (line 169). -/
noncomputable def oracleTDepth (p : HestonParams) : ℕ :=
  p.timeSteps * tGatesPerStep (precisionBits p)

/-- totalTGates = oracleTDepth * groverIterations (line 172); the source's
Math.ceil on this integer-valued quantity is the identity. -/
noncomputable def totalTGates (p : HestonParams) : ℕ :=
  oracleTDepth p * groverIterations p

/-- cnotCount = ceil(totalTGates * 2.5) (lines 173, 189). -/
noncomputable def cnotCount (p : HestonParams) : ℕ :=
  ⌈(totalTGates p : ℝ) * 2.5⌉₊

/-- logicalStateQubits = 2 * precisionBits (line 177). -/
noncomputable def logicalStateQubits (p : HestonParams) : ℕ :=
  2 * precisionBits p

/-- logicalAncillaQubits = 6 * precisionBits (line 178). -/
noncomputable def logicalAncillaQubits (p : HestonParams) : ℕ :=
  6 * precisionBits p

/-- qaeQubits = ceil(log2(groverIterations)) + 2 (line 179). -/
noncomputable def qaeQubits (p : HestonParams) : ℕ :=
  ⌈Real.logb 2 (groverIterations p)⌉₊ + 2

/-- totalLogicalQubits = state + ancilla + qae (line 181). -/
noncomputable def totalLogicalQubits (p : HestonParams) : ℕ :=
  logicalStateQubits p + logicalAncillaQubits p + qaeQubits p

/-- calculateQuantumMetrics (heston.ts lines 152-198). The classicalError
argument is accepted, as in the source, and never used in the body. -/
noncomputable def calculateQuantumMetrics (p : HestonParams)
    (classicalError : ℝ) : QuantumMetrics :=
  { estimatedQubits := totalLogicalQubits p
    circuitDepth := oracleTDepth p * groverIterations p
    theoreticalSpeedup := theoreticalSpeedup p
    estimatedQuantumError := targetError p
    tGateCount := totalTGates p
    cnotCount := cnotCount p
    oracleDepth := oracleTDepth p
    groverIterations := groverIterations p
    qubitBreakdown :=
      { state := logicalStateQubits p
        ancilla := logicalAncillaQubits p
        qae := qaeQubits p } }

/-- Concrete parameter record used to instantiate theorems: the spec's
section 8 scenario with small path and step counts. -/
noncomputable def kvBaseParams : HestonParams :=
  { S0 := 100, K := 100, r := 0.05, T := 1, v0 := 0.04, theta := 0.04,
    kappa := 2, xi := 0.3, rho := -0.5, numPaths := 1, timeSteps := 1,
    optionType := OptionType.Call }

lemma kvBaseParams_valid : ValidParams kvBaseParams := by
  refine ⟨?_, ?_, ?_, ?_, ?_, ?_, ?_, ?_, ?_, ?_, ?_⟩ <;> norm_num [kvBaseParams]

/-- A parameter record invalid per the spec's validation contract: K = 0. -/
noncomputable def kvBadParams : HestonParams := { kvBaseParams with K := 0 }

/-- C1, counterexample. The record kvBadParams has K ≤ 0, which the spec says
must be rejected with a validation error before any computation, yet
runHestonSimulation returns an ordinary SimulationOutcome on it. -/
theorem c1_counterexample :
    kvBadParams.K ≤ 0 ∧
      ∃ res, runHestonSimulation kvBadParams zeroNoise = Except.ok res :=
  ⟨by norm_num [kvBadParams, kvBaseParams], ⟨_, rfl⟩⟩

/-- C1, amended: runHestonSimulation performs no input validation at all; for
every parameter record, valid or not, it returns a SimulationOutcome and never
reports a validation error. -/
theorem c1_amended_no_validation (p : HestonParams) (noise : NoiseStream) :
    ∃ res, runHestonSimulation p noise = Except.ok res :=
  ⟨_, rfl⟩

/-- Wording of the spec for the per-step update (section 4.1, step 2), for
comparison with the update embedded from the source: with dt = T/M,
w1 = z1, w2 = ρ·z1 + √(1−ρ²)·z2 and vPrev = max(0, v), the new state is
X + (r − 0.5·vPrev)·dt + √vPrev·√dt·w1 and
v + κ(θ − vPrev)·dt + ξ·√vPrev·√dt·w2. -/
noncomputable def stepUpdateSpec (p : HestonParams) (z1 z2 X v : ℝ) : ℝ × ℝ :=
  let dt := p.T / p.timeSteps
  let w1 := z1
  let w2 := p.rho * z1 + Real.sqrt (1 - p.rho ^ 2) * z2
  let vPrev := max 0 v
  (X + (p.r - 0.5 * vPrev) * dt + Real.sqrt vPrev * Real.sqrt dt * w1,
   v + p.kappa * (p.theta - vPrev) * dt + p.xi * Real.sqrt vPrev * Real.sqrt dt * w2)

/-- Wording of the spec for the payoff (section 4.1, step 3): max(0, S − K)
for a Call, max(0, K − S) for a Put, with S the terminal price. -/
noncomputable def payoffSpec (p : HestonParams) (S : ℝ) : ℝ :=
  match p.optionType with
  | OptionType.Call => max 0 (S - p.K)
  | OptionType.Put => max 0 (p.K - S)

/-- C2: every step of every path applies exactly the spec's full-truncation
log-Euler update, the walk starts from X = ln(S0) and v = v0, the terminal
price is exp(X) after the M-th step, and the payoff is max(0, S − K) for a
Call and max(0, K − S) for a Put. -/
theorem c2_step_init_payoff (p : HestonParams) (z : ℕ → ℝ × ℝ) (z1 z2 X v : ℝ) :
    stepUpdate p z1 z2 (X, v) = stepUpdateSpec p z1 z2 X v ∧
    pathState p z 0 = (Real.log p.S0, p.v0) ∧
    (∀ t, pathState p z (t + 1) =
      stepUpdateSpec p (z t).1 (z t).2 (pathState p z t).1 (pathState p z t).2) ∧
    terminalPrice p z = Real.exp (pathState p z p.timeSteps).1 ∧
    pathPayoff p z = payoffSpec p (terminalPrice p z) := by
  have hstep : ∀ (a b : ℝ) (s : ℝ × ℝ),
      stepUpdate p a b s = stepUpdateSpec p a b s.1 s.2 := by
    intro a b s
    simp only [stepUpdate, stepUpdateSpec, pow_two]
  refine ⟨hstep z1 z2 (X, v), rfl, ?_, rfl, ?_⟩
  · intro t
    rw [show pathState p z (t + 1) =
      stepUpdate p (z t).1 (z t).2 (pathState p z t) from rfl, hstep]
  · cases h : p.optionType <;> simp [pathPayoff, payoffSpec, h]

/-- C5: the Sensitivity Estimator's price-to-spot sensitivity for a Call minus
the one for a Put with the same parameters is exactly 1, independently of the
auxiliary currentPrice argument. -/
theorem c5_delta_parity (p : HestonParams) (c : ℝ) :
    (calculateGreeks { p with optionType := OptionType.Call } c).delta -
      (calculateGreeks { p with optionType := OptionType.Put } c).delta = 1 := by
  simp [calculateGreeks]

/-- C9: calculateQuantumMetrics ignores its classicalError argument and
depends on the parameter record only through numPaths and timeSteps. -/
theorem c9_classicalError_independent (p q : HestonParams) (c₁ c₂ : ℝ)
    (hN : p.numPaths = q.numPaths) (hM : p.timeSteps = q.timeSteps) :
    calculateQuantumMetrics p c₁ = calculateQuantumMetrics q c₂ := by
  simp only [calculateQuantumMetrics, targetError, precisionBits,
    groverIterations, theoreticalSpeedup, oracleTDepth, totalTGates, cnotCount,
    logicalStateQubits, logicalAncillaQubits, qaeQubits, totalLogicalQubits,
    hN, hM]

/-- Witness for C9: two records with the same numPaths and timeSteps but
different market fields, and different classicalError values, give equal
resource estimates. -/
theorem c9_witness :
    calculateQuantumMetrics kvBaseParams 0.1 =
      calculateQuantumMetrics { kvBaseParams with S0 := 50, rho := 0.3 } 0.2 :=
  c9_classicalError_independent _ _ _ _ rfl rfl

/-- C4: for every valid parameter record the terminal-price distribution has
exactly numPaths entries and every entry is strictly positive. -/
theorem c4_finalPrices (p : HestonParams) (noise : NoiseStream)
    (hv : ValidParams p) :
    (runHestonSimulationCore p noise).finalPrices.length = p.numPaths ∧
    ∀ x ∈ (runHestonSimulationCore p noise).finalPrices, 0 < x := by
  clear hv
  constructor
  · simp [runHestonSimulationCore, finalPrices]
  · intro x hx
    simp only [runHestonSimulationCore, finalPrices, List.mem_map] at hx
    obtain ⟨i, -, rfl⟩ := hx
    exact Real.exp_pos _

/-- Witness for C4 at a concrete valid parameter record. -/
theorem c4_witness :
    ValidParams kvBaseParams ∧
      ((runHestonSimulationCore kvBaseParams zeroNoise).finalPrices.length =
        kvBaseParams.numPaths ∧
      ∀ x ∈ (runHestonSimulationCore kvBaseParams zeroNoise).finalPrices,
        0 < x) :=
  ⟨kvBaseParams_valid, c4_finalPrices _ _ kvBaseParams_valid⟩

lemma mem_visualSamples_vol {p : HestonParams} {z : ℕ → ℝ × ℝ} {i : ℕ}
    (hv0 : 0 ≤ p.v0) {pt : PathPoint} (h : pt ∈ visualSamples p z i) :
    0 ≤ pt.vol := by
  simp only [visualSamples, List.mem_cons, List.mem_map] at h
  rcases h with h | ⟨t, -, rfl⟩
  · rw [h]; exact hv0
  · exact le_max_left 0 _

lemma mem_visualSamples_pathId {p : HestonParams} {z : ℕ → ℝ × ℝ} {i : ℕ}
    {pt : PathPoint} (h : pt ∈ visualSamples p z i) : pt.pathId = i := by
  simp only [visualSamples, List.mem_cons, List.mem_map] at h
  rcases h with h | ⟨t, -, rfl⟩
  · rw [h]
  · rfl

lemma mem_visualizationPaths {p : HestonParams} {noise : NoiseStream}
    {pt : PathPoint} (h : pt ∈ visualizationPaths p noise) :
    ∃ i, i < p.numPaths ∧ i < pathsToVisualize ∧ pt ∈ visualSamples p (noise i) i := by
  simp only [visualizationPaths, List.mem_flatMap, List.mem_range] at h
  obtain ⟨i, hi, hmem⟩ := h
  by_cases h50 : i < pathsToVisualize
  · rw [if_pos h50] at hmem
    exact ⟨i, hi, h50, hmem⟩
  · rw [if_neg h50] at hmem
    exact absurd hmem (List.not_mem_nil pt)

/-- C10: when the initial variance is non-negative, every variance value
recorded in the visualization samples is non-negative: the initial sample of
each visualized path records v0 and every later sample records max(0, v). -/
theorem c10_recorded_vol_nonneg (p : HestonParams) (noise : NoiseStream)
    (hv0 : 0 ≤ p.v0) :
    ∀ pt ∈ (runHestonSimulationCore p noise).paths, 0 ≤ pt.vol := by
  intro pt hpt
  obtain ⟨i, -, -, hmem⟩ :=
    mem_visualizationPaths hpt
  exact mem_visualSamples_vol hv0 hmem

/-- Witness for C10 at a concrete parameter record with v0 ≥ 0. -/
theorem c10_witness :
    (0 : ℝ) ≤ kvBaseParams.v0 ∧
      ∀ pt ∈ (runHestonSimulationCore kvBaseParams zeroNoise).paths,
        0 ≤ pt.vol :=
  ⟨by norm_num [kvBaseParams],
    c10_recorded_vol_nonneg _ _ (by norm_num [kvBaseParams])⟩

lemma list_sum_centered_sq (l : List ℝ) (m : ℝ) :
    (l.map (fun x => (x - m) * (x - m))).sum =
      (l.map (fun x => x * x)).sum - 2 * m * l.sum + l.length * (m * m) := by
  induction l with
  | nil => simp
  | cons a l ih =>
    simp only [List.map_cons, List.sum_cons, ih, List.length_cons]
    push_cast
    ring

lemma simVariance_nonneg (p : HestonParams) (noise : NoiseStream)
    (hN : 1 ≤ p.numPaths) : 0 ≤ simVariance p noise := by
  have hlen : (payoffList p noise).length = p.numPaths := by
    simp [payoffList]
  have hn : (0 : ℝ) < p.numPaths := by
    exact_mod_cast Nat.lt_of_lt_of_le Nat.zero_lt_one hN
  have hkey : 0 ≤ ((payoffList p noise).map
      (fun x => (x - meanPayoff p noise) * (x - meanPayoff p noise))).sum := by
    apply List.sum_nonneg
    intro x hx
    simp only [List.mem_map] at hx
    obtain ⟨y, -, rfl⟩ := hx
    exact mul_self_nonneg _
  rw [list_sum_centered_sq, hlen] at hkey
  have hmean : meanPayoff p noise = sumPayoffs p noise / p.numPaths := rfl
  have hsum : sumPayoffs p noise = (payoffList p noise).sum := rfl
  have hsq : sumPayoffsSquared p noise =
      ((payoffList p noise).map (fun x => x * x)).sum := rfl
  rw [← hsum, ← hsq, hmean] at hkey
  have hne : (p.numPaths : ℝ) ≠ 0 := ne_of_gt hn
  have expand : sumPayoffsSquared p noise -
      2 * (sumPayoffs p noise / (p.numPaths : ℝ)) * sumPayoffs p noise +
      (p.numPaths : ℝ) * (sumPayoffs p noise / (p.numPaths : ℝ) *
        (sumPayoffs p noise / (p.numPaths : ℝ))) =
      sumPayoffsSquared p noise -
        sumPayoffs p noise * sumPayoffs p noise / (p.numPaths : ℝ) := by
    field_simp
    ring
  rw [expand] at hkey
  have h3 : sumPayoffs p noise * sumPayoffs p noise / (p.numPaths : ℝ) ≤
      sumPayoffsSquared p noise := by linarith
  have h4 : sumPayoffs p noise * sumPayoffs p noise ≤
      sumPayoffsSquared p noise * (p.numPaths : ℝ) := (div_le_iff hn).mp h3
  unfold simVariance meanPayoff
  rw [sub_nonneg, div_mul_div_comm, div_le_div_iff (by positivity) hn]
  nlinarith [mul_le_mul_of_nonneg_right h4 hn.le]

/-- C3: the computed sample variance coincides with the spec's zero-clamped
expression (it is never negative in exact arithmetic), the standard error
equals e^(−rT)·√(variance/N), and for every valid parameter record the
returned standard error is non-negative. -/
theorem c3_variance_stderr (p : HestonParams) (noise : NoiseStream)
    (hv : ValidParams p) :
    simVariance p noise =
      max 0 (sumPayoffsSquared p noise / p.numPaths -
        meanPayoff p noise * meanPayoff p noise) ∧
    simStandardError p noise =
      Real.exp (-(p.r * p.T)) * Real.sqrt (simVariance p noise / p.numPaths) ∧
    0 ≤ (runHestonSimulationCore p noise).standardError := by
  obtain ⟨-, -, -, -, -, -, -, -, -, hN, -⟩ := hv
  have h0 : 0 ≤ simVariance p noise := simVariance_nonneg p noise hN
  refine ⟨?_, ?_, ?_⟩
  · rw [show sumPayoffsSquared p noise / p.numPaths -
      meanPayoff p noise * meanPayoff p noise = simVariance p noise from rfl,
      max_eq_right h0]
  · rw [simStandardError, Real.sqrt_div h0, neg_mul, mul_comm]
  · show 0 ≤ simStandardError p noise
    unfold simStandardError
    positivity

/-- Witness for C3 at a concrete valid parameter record. -/
theorem c3_witness :
    ValidParams kvBaseParams ∧
      (simVariance kvBaseParams zeroNoise =
        max 0 (sumPayoffsSquared kvBaseParams zeroNoise / kvBaseParams.numPaths -
          meanPayoff kvBaseParams zeroNoise * meanPayoff kvBaseParams zeroNoise) ∧
      simStandardError kvBaseParams zeroNoise =
        Real.exp (-(kvBaseParams.r * kvBaseParams.T)) *
          Real.sqrt (simVariance kvBaseParams zeroNoise / kvBaseParams.numPaths) ∧
      0 ≤ (runHestonSimulationCore kvBaseParams zeroNoise).standardError) :=
  ⟨kvBaseParams_valid, c3_variance_stderr _ _ kvBaseParams_valid⟩

lemma filter_visualSamples_ne (p : HestonParams) (z : ℕ → ℝ × ℝ) {i j : ℕ}
    (hne : j ≠ i) :
    (visualSamples p z j).filter (fun e => e.pathId == i) = [] := by
  rw [List.filter_eq_nil_iff]
  intro pt hpt
  have := mem_visualSamples_pathId hpt
  simp [this, hne]

lemma filter_visualSamples_self (p : HestonParams) (z : ℕ → ℝ × ℝ) (i : ℕ) :
    (visualSamples p z i).filter (fun e => e.pathId == i) = visualSamples p z i := by
  rw [List.filter_eq_self]
  intro pt hpt
  have := mem_visualSamples_pathId hpt
  simp [this]

lemma filter_visual_range_empty (p : HestonParams) (noise : NoiseStream) (i : ℕ) :
    ∀ n, n ≤ i →
      ((List.range n).flatMap (fun j =>
        if j < pathsToVisualize then visualSamples p (noise j) j else [])).filter
          (fun e => e.pathId == i) = [] := by
  intro n
  induction n with
  | zero => intro _; simp
  | succ n ih =>
    intro h
    rw [List.range_succ, List.flatMap_append, List.filter_append,
      ih (Nat.le_of_succ_le h)]
    simp only [List.flatMap_cons, List.flatMap_nil, List.append_nil,
      List.nil_append]
    by_cases h50 : n < pathsToVisualize
    · rw [if_pos h50]
      exact filter_visualSamples_ne p (noise n) (Nat.ne_of_lt (Nat.lt_of_succ_le h))
    · rw [if_neg h50]
      rfl

lemma filter_visualizationPaths (p : HestonParams) (noise : NoiseStream)
    {i : ℕ} (hi50 : i < pathsToVisualize) :
    ∀ n, i < n →
      ((List.range n).flatMap (fun j =>
        if j < pathsToVisualize then visualSamples p (noise j) j else [])).filter
          (fun e => e.pathId == i) = visualSamples p (noise i) i := by
  intro n
  induction n with
  | zero => intro h; exact absurd h (Nat.not_lt_zero i)
  | succ n ih =>
    intro h
    rw [List.range_succ, List.flatMap_append, List.filter_append]
    simp only [List.flatMap_cons, List.flatMap_nil, List.append_nil]
    rcases Nat.lt_succ_iff_lt_or_eq.mp h with h' | rfl
    · rw [ih h']
      by_cases h50 : n < pathsToVisualize
      · rw [if_pos h50,
          filter_visualSamples_ne p (noise n) (Nat.ne_of_gt h'),
          List.append_nil]
      · rw [if_neg h50, List.filter_nil, List.append_nil]
    · rw [filter_visual_range_empty p noise i i (le_refl i), if_pos hi50,
        filter_visualSamples_self]
      rfl

/-- C8: the visualization array references at most 50 distinct path indices
regardless of numPaths, and for every visualized path index i the first
recorded sample of that path is the point (time 0, value S0, vol v0). -/
theorem c8_visual_cap (p : HestonParams) (noise : NoiseStream) :
    (((runHestonSimulationCore p noise).paths.map
        (fun e => e.pathId)).toFinset.card ≤ 50) ∧
    ∀ i, i < min p.numPaths 50 →
      (((runHestonSimulationCore p noise).paths.filter
          (fun e => e.pathId == i)).head?) =
        some ⟨0, p.S0, p.v0, i⟩ := by
  constructor
  · have hsub : ((runHestonSimulationCore p noise).paths.map
        (fun e => e.pathId)).toFinset ⊆ Finset.range 50 := by
      intro x hx
      rw [List.mem_toFinset, List.mem_map] at hx
      obtain ⟨pt, hpt, rfl⟩ := hx
      obtain ⟨j, -, hj50, hmem⟩ :=
        mem_visualizationPaths hpt
      rw [Finset.mem_range, mem_visualSamples_pathId hmem]
      exact hj50
    calc ((runHestonSimulationCore p noise).paths.map
        (fun e => e.pathId)).toFinset.card
        ≤ (Finset.range 50).card := Finset.card_le_card hsub
      _ = 50 := Finset.card_range 50
  · intro i hi
    rw [Nat.lt_min] at hi
    have : (runHestonSimulationCore p noise).paths.filter
        (fun e => e.pathId == i) = visualSamples p (noise i) i :=
      filter_visualizationPaths p noise hi.2 p.numPaths hi.1
    rw [this]
    rfl

/-- Witness for C8 at a concrete parameter record, instantiated at path 0. -/
theorem c8_witness :
    (((runHestonSimulationCore kvBaseParams zeroNoise).paths.map
        (fun e => e.pathId)).toFinset.card ≤ 50) ∧
    (((runHestonSimulationCore kvBaseParams zeroNoise).paths.filter
        (fun e => e.pathId == 0)).head?) =
      some ⟨0, kvBaseParams.S0, kvBaseParams.v0, 0⟩ :=
  ⟨(c8_visual_cap kvBaseParams zeroNoise).1,
    (c8_visual_cap kvBaseParams zeroNoise).2 0 (by norm_num [kvBaseParams])⟩

/-- Parameter record with numPaths = 1000, for the section 8 scenario. -/
noncomputable def kvParams1000 : HestonParams :=
  { kvBaseParams with numPaths := 1000 }

/-- C6: with numPaths = 1000 the Resource Estimator returns target error
1/√1000, amplitude-estimation iteration count 25, and speedup 1000/25 = 40. -/
theorem c6_resource_scenario (p : HestonParams) (c : ℝ)
    (hN : p.numPaths = 1000) :
    (calculateQuantumMetrics p c).estimatedQuantumError = 1 / Real.sqrt 1000 ∧
    (calculateQuantumMetrics p c).groverIterations = 25 ∧
    (calculateQuantumMetrics p c).theoreticalSpeedup = 40 := by
  have hε : targetError p = 1 / Real.sqrt 1000 := by
    rw [targetError, hN]
    norm_num
  have hk : groverIterations p = 25 := by
    rw [groverIterations, hε, one_div_one_div]
    have hs : Real.sqrt 1000 ^ 2 = 1000 := Real.sq_sqrt (by norm_num)
    have hs0 : (0 : ℝ) ≤ Real.sqrt 1000 := Real.sqrt_nonneg _
    have hsu : Real.sqrt 1000 ≤ 31.63 := by nlinarith
    have hsl : (31.6 : ℝ) ≤ Real.sqrt 1000 := by nlinarith
    have hπu : Real.pi < 3.15 := Real.pi_lt_d2
    have hπl : (3.141592 : ℝ) < Real.pi := Real.pi_gt_d6
    rw [Nat.ceil_eq_iff (by norm_num)]
    constructor
    · push_cast
      nlinarith [mul_le_mul hπl.le hsl (by norm_num : (0:ℝ) ≤ 31.6)
        Real.pi_pos.le]
    · push_cast
      nlinarith [mul_le_mul hπu.le hsu hs0 (by norm_num : (0:ℝ) ≤ 3.15)]
  refine ⟨hε, hk, ?_⟩
  show theoreticalSpeedup p = 40
  rw [theoreticalSpeedup, hk, hN]
  norm_num

/-- Witness for C6 at a concrete parameter record with 1000 paths. -/
theorem c6_witness :
    (calculateQuantumMetrics kvParams1000 0.1).estimatedQuantumError =
      1 / Real.sqrt 1000 ∧
    (calculateQuantumMetrics kvParams1000 0.1).groverIterations = 25 ∧
    (calculateQuantumMetrics kvParams1000 0.1).theoreticalSpeedup = 40 :=
  c6_resource_scenario kvParams1000 0.1 rfl

/-- C7, amended: increasing the path count N with the time-step count fixed
strictly decreases the target error, while the iteration count, the total
logical qubit count and the total gate counts increase monotonically but not
necessarily strictly. -/
theorem c7_amended_monotone (p q : HestonParams)
    (hM : p.timeSteps = q.timeSteps) (h1 : 1 ≤ p.numPaths)
    (hlt : p.numPaths < q.numPaths) :
    targetError q < targetError p ∧
    groverIterations p ≤ groverIterations q ∧
    totalLogicalQubits p ≤ totalLogicalQubits q ∧
    totalTGates p ≤ totalTGates q ∧
    cnotCount p ≤ cnotCount q := by
  have hp0 : (0 : ℝ) < p.numPaths := by exact_mod_cast h1
  have hq0 : (0 : ℝ) < q.numPaths := by
    exact_mod_cast Nat.lt_of_lt_of_le (Nat.lt_of_lt_of_le Nat.zero_lt_one h1) hlt.le
  have hsp : 0 < Real.sqrt p.numPaths := Real.sqrt_pos.mpr hp0
  have hsq : 0 < Real.sqrt q.numPaths := Real.sqrt_pos.mpr hq0
  have hss : Real.sqrt p.numPaths < Real.sqrt q.numPaths :=
    Real.sqrt_lt_sqrt (Nat.cast_nonneg _) (by exact_mod_cast hlt)
  have hgp : groverIterations p = ⌈Real.pi / 4 * Real.sqrt p.numPaths⌉₊ := by
    rw [groverIterations, targetError, one_div_one_div]
  have hgq : groverIterations q = ⌈Real.pi / 4 * Real.sqrt q.numPaths⌉₊ := by
    rw [groverIterations, targetError, one_div_one_div]
  have hk : groverIterations p ≤ groverIterations q := by
    rw [hgp, hgq]
    exact Nat.ceil_le_ceil
      (mul_le_mul_of_nonneg_left hss.le (by positivity))
  have hlogp : -Real.logb 2 (targetError p) =
      Real.logb 2 (Real.sqrt p.numPaths) := by
    rw [targetError, one_div, Real.logb_inv, neg_neg]
  have hlogq : -Real.logb 2 (targetError q) =
      Real.logb 2 (Real.sqrt q.numPaths) := by
    rw [targetError, one_div, Real.logb_inv, neg_neg]
  have hb : precisionBits p ≤ precisionBits q := by
    rw [precisionBits, precisionBits, hlogp, hlogq]
    exact Nat.ceil_le_ceil (add_le_add_left
      (max_le_max (le_refl 0)
        (Real.logb_le_logb_of_le one_lt_two hsp hss.le)) 10)
  have hk1 : 1 ≤ groverIterations p := by
    rw [hgp]
    exact Nat.one_le_ceil_iff.mpr (by positivity)
  have hqae : qaeQubits p ≤ qaeQubits q := by
    rw [qaeQubits, qaeQubits]
    have hkp0 : (0 : ℝ) < groverIterations p := by exact_mod_cast hk1
    have : Real.logb 2 (groverIterations p) ≤
        Real.logb 2 (groverIterations q) :=
      Real.logb_le_logb_of_le one_lt_two hkp0 (by exact_mod_cast hk)
    exact add_le_add_right (Nat.ceil_le_ceil this) 2
  have htg : tGatesPerStep (precisionBits p) ≤ tGatesPerStep (precisionBits q) := by
    simp only [tGatesPerStep]
    omega
  have horacle : oracleTDepth p ≤ oracleTDepth q := by
    rw [oracleTDepth, oracleTDepth, ← hM]
    exact Nat.mul_le_mul_left _ htg
  have htotal : totalTGates p ≤ totalTGates q :=
    Nat.mul_le_mul horacle hk
  refine ⟨?_, hk, ?_, htotal, ?_⟩
  · rw [targetError, targetError]
    exact one_div_lt_one_div_of_lt hsp hss
  · rw [totalLogicalQubits, totalLogicalQubits,
      logicalStateQubits, logicalStateQubits,
      logicalAncillaQubits, logicalAncillaQubits]
    omega
  · rw [cnotCount, cnotCount]
    exact Nat.ceil_le_ceil (mul_le_mul_of_nonneg_right
      (by exact_mod_cast htotal) (by norm_num))

/-- Witness for C7's amended statement: one path versus two paths. -/
theorem c7_amended_witness :
    kvBaseParams.timeSteps = ({ kvBaseParams with numPaths := 2 } : HestonParams).timeSteps ∧
    1 ≤ kvBaseParams.numPaths ∧
    kvBaseParams.numPaths < ({ kvBaseParams with numPaths := 2 } : HestonParams).numPaths ∧
    (targetError { kvBaseParams with numPaths := 2 } < targetError kvBaseParams ∧
      groverIterations kvBaseParams ≤
        groverIterations { kvBaseParams with numPaths := 2 } ∧
      totalLogicalQubits kvBaseParams ≤
        totalLogicalQubits { kvBaseParams with numPaths := 2 } ∧
      totalTGates kvBaseParams ≤
        totalTGates { kvBaseParams with numPaths := 2 } ∧
      cnotCount kvBaseParams ≤
        cnotCount { kvBaseParams with numPaths := 2 }) :=
  ⟨rfl, by norm_num [kvBaseParams], by norm_num [kvBaseParams],
    c7_amended_monotone _ _ rfl (by norm_num [kvBaseParams])
      (by norm_num [kvBaseParams])⟩

/-- Parameter record with two paths. -/
noncomputable def kvParamsN2 : HestonParams := { kvBaseParams with numPaths := 2 }

/-- Parameter record with three paths. -/
noncomputable def kvParamsN3 : HestonParams := { kvBaseParams with numPaths := 3 }

/-- C7, counterexample: going from N = 2 to N = 3 paths (time-step count
fixed) leaves the iteration count, the total logical qubit count and both
total gate counts unchanged, so none of them strictly increases. -/
theorem c7_counterexample :
    kvParamsN2.numPaths < kvParamsN3.numPaths ∧
    kvParamsN2.timeSteps = kvParamsN3.timeSteps ∧
    groverIterations kvParamsN3 = groverIterations kvParamsN2 ∧
    totalLogicalQubits kvParamsN3 = totalLogicalQubits kvParamsN2 ∧
    totalTGates kvParamsN3 = totalTGates kvParamsN2 ∧
    cnotCount kvParamsN3 = cnotCount kvParamsN2 := by
  have hπu : Real.pi < 3.15 := Real.pi_lt_d2
  have hπl : (3.141592 : ℝ) < Real.pi := Real.pi_gt_d6
  have ht2 : targetError kvParamsN2 = 1 / Real.sqrt 2 := by
    rw [targetError]
    norm_num [kvParamsN2, kvBaseParams]
  have ht3 : targetError kvParamsN3 = 1 / Real.sqrt 3 := by
    rw [targetError]
    norm_num [kvParamsN3, kvBaseParams]
  have hk2 : groverIterations kvParamsN2 = 2 := by
    rw [groverIterations, ht2, one_div_one_div]
    have hs : Real.sqrt 2 ^ 2 = 2 := Real.sq_sqrt (by norm_num)
    have hs0 : (0 : ℝ) ≤ Real.sqrt 2 := Real.sqrt_nonneg _
    have hsu : Real.sqrt 2 ≤ 1.415 := by nlinarith
    have hsl : (1.414 : ℝ) ≤ Real.sqrt 2 := by nlinarith
    rw [Nat.ceil_eq_iff (by norm_num)]
    constructor
    · push_cast
      nlinarith [mul_le_mul hπl.le hsl (by norm_num : (0:ℝ) ≤ 1.414)
        Real.pi_pos.le]
    · push_cast
      nlinarith [mul_le_mul hπu.le hsu hs0 (by norm_num : (0:ℝ) ≤ 3.15)]
  have hk3 : groverIterations kvParamsN3 = 2 := by
    rw [groverIterations, ht3, one_div_one_div]
    have hs : Real.sqrt 3 ^ 2 = 3 := Real.sq_sqrt (by norm_num)
    have hs0 : (0 : ℝ) ≤ Real.sqrt 3 := Real.sqrt_nonneg _
    have hsu : Real.sqrt 3 ≤ 1.733 := by nlinarith
    have hsl : (1.732 : ℝ) ≤ Real.sqrt 3 := by nlinarith
    rw [Nat.ceil_eq_iff (by norm_num)]
    constructor
    · push_cast
      nlinarith [mul_le_mul hπl.le hsl (by norm_num : (0:ℝ) ≤ 1.732)
        Real.pi_pos.le]
    · push_cast
      nlinarith [mul_le_mul hπu.le hsu hs0 (by norm_num : (0:ℝ) ≤ 3.15)]
  have hb2 : precisionBits kvParamsN2 = 11 := by
    rw [precisionBits, ht2]
    have hlog : -Real.logb 2 (1 / Real.sqrt 2) = 1 / 2 := by
      rw [one_div, Real.logb_inv, neg_neg, Real.logb,
        Real.log_sqrt (by norm_num)]
      have h2 : Real.log 2 ≠ 0 := ne_of_gt (Real.log_pos one_lt_two)
      field_simp
      ring
    rw [hlog, max_eq_right (by norm_num)]
    rw [Nat.ceil_eq_iff (by norm_num)]
    constructor <;> push_cast <;> norm_num
  have hb3 : precisionBits kvParamsN3 = 11 := by
    rw [precisionBits, ht3]
    have hlog : -Real.logb 2 (1 / Real.sqrt 3) = Real.logb 2 3 / 2 := by
      rw [one_div, Real.logb_inv, neg_neg, Real.logb,
        Real.log_sqrt (by norm_num), Real.logb]
      ring
    have hpos : 0 < Real.logb 2 3 := Real.logb_pos one_lt_two (by norm_num)
    have hle : Real.logb 2 3 ≤ 2 := by
      have h4 : Real.logb 2 4 = 2 := by
        rw [Real.logb, show (4:ℝ) = 2 ^ 2 by norm_num, Real.log_pow]
        have h2 : Real.log 2 ≠ 0 := ne_of_gt (Real.log_pos one_lt_two)
        field_simp
      calc Real.logb 2 3 ≤ Real.logb 2 4 :=
            Real.logb_le_logb_of_le one_lt_two (by norm_num) (by norm_num)
        _ = 2 := h4
    rw [hlog, max_eq_right (by linarith)]
    rw [Nat.ceil_eq_iff (by norm_num)]
    constructor
    · push_cast
      linarith
    · push_cast
      linarith
  have htt : totalTGates kvParamsN3 = totalTGates kvParamsN2 := by
    rw [totalTGates, totalTGates, oracleTDepth, oracleTDepth, hb2, hb3,
      hk2, hk3]
    rfl
  refine ⟨by norm_num [kvParamsN2, kvParamsN3, kvBaseParams], rfl,
    by rw [hk2, hk3], ?_, htt, by rw [cnotCount, cnotCount, htt]⟩
  rw [totalLogicalQubits, totalLogicalQubits, logicalStateQubits,
    logicalStateQubits, logicalAncillaQubits, logicalAncillaQubits,
    qaeQubits, qaeQubits, hb2, hb3, hk2, hk3]

end Kvantum
